import Mathlib

/-!
Shallow embedding of the Agent_RAG retrieval-augmented reasoning core:
`src/indexing/multilevel_index.py`, `src/agent/react_agent.py`,
`src/agent/reasoning.py`, `src/agent/action_executor.py`,
`src/core/retriever.py`, `src/core/reranker.py` and
`src/query/intent_classifier.py`.

Modelling conventions:
* Python floats (confidences, scores) are modelled as `Rat`.
* A metadata value that may be absent (`metadata.get(...)`) is an `Option`;
  the string default used at each call site is applied exactly where the
  Python code applies it.
* Code that may raise is modelled in `Except String`; the string stands for
  the exception text.  Code wrapped in `try/except` in Python is total here.
* The reasoning oracle (an LLM) is nondeterministic; its responses, and the
  results of the external vector store and tools, are modelled as functions
  of the loop iteration index on which the call is made.
-/

namespace AgentRag

/-- A `langchain` `Document`: page content plus the two metadata fields that
the core reads (`source` and `chunk_index`).  `chunkIndex` holds the
stringified metadata value, since the code only ever interpolates it into
an identity-key string. -/
structure Doc where
  content : String
  source : Option String
  chunkIndex : Option String
  deriving DecidableEq, Repr

/-- Identity key used for deduplication, `f"{source}_{chunk_index}"` with
`metadata.get(..., "")` defaults (`MultilevelIndex._get_doc_id` and
`ReActAgent._deduplicate_documents` compute the same key). -/
def docKey (d : Doc) : String :=
  d.source.getD "" ++ "_" ++ d.chunkIndex.getD ""

/-! ## Multi-level index (`src/indexing/multilevel_index.py`) -/

/-- One retrieval level of `MultilevelIndex`: whether the vector store is
present (`self.levelN_store` truthy), whether the config enables the level,
and the outcome of `store.similarity_search(query, k)` for this query
(`.error` models the backend raising). -/
structure LevelCfg where
  store : Bool
  enabled : Bool
  result : Except String (List Doc)
  deriving Repr

/-- The seen-id/accumulator loop shared by the level-2 and level-3 blocks of
`MultilevelIndex.retrieve`: append each doc whose identity key has not been
seen, and record its key. -/
def addUnique : List Doc × List String → List Doc → List Doc × List String
  | st, [] => st
  | (acc, seen), d :: ds =>
    if docKey d ∈ seen then addUnique (acc, seen) ds
    else addUnique (acc ++ [d], docKey d :: seen) ds

@[simp] theorem addUnique_nil (st : List Doc × List String) :
    addUnique st [] = st := rfl

/-- `MultilevelIndex.retrieve(query, top_k)`.  Level 1 is queried (so a
backend exception there propagates) and its sources are computed, but its
documents are never appended to the accumulator; levels 2 and 3 are
dedup-appended; finally the accumulator is truncated to `top_k`.  There is
no `try/except` in the Python function, so any `similarity_search` failure
propagates. -/
def MultilevelIndex.retrieve (topK : Nat) (l1 l2 l3 : LevelCfg) :
    Except String (List Doc) := do
  if l1.store && l1.enabled then
    let _level1Docs ← l1.result
    pure ()
  let st1 ←
    if l2.store && l2.enabled then do
      let docs ← l2.result
      pure (addUnique (([] : List Doc), ([] : List String)) docs)
    else
      pure (([] : List Doc), ([] : List String))
  let st2 ←
    if l3.store && l3.enabled then do
      let docs ← l3.result
      pure (addUnique st1 docs)
    else
      pure st1
  pure (st2.1.take topK)

/-- The merge algorithm as the spec words it (section 4.1): visit each
enabled level in the fixed priority order, dedup-append that level's items,
then truncate to `targetCount`.  Stated over an explicit list of
(enabled, items) levels so it can be compared with the code. -/
def specMergeLevels (targetCount : Nat) (levels : List (Bool × List Doc)) :
    List Doc :=
  (levels.foldl (fun st lv => if lv.1 then addUnique st lv.2 else st)
    (([] : List Doc), ([] : List String))).1.take targetCount

/-- A level takes part in retrieval iff its store exists and it is enabled. -/
def LevelCfg.active (l : LevelCfg) : Bool := l.store && l.enabled

/-- Whether the level's provider call succeeded. -/
def LevelCfg.succeeded (l : LevelCfg) : Bool :=
  match l.result with
  | .ok _ => true
  | .error _ => false

def coarseDoc : Doc := ⟨"topic summary", some "docA", some "0"⟩

def chunkDoc : Doc := ⟨"standard chunk", some "docB", some "0"⟩

/-- Claim C1 (counterexample): with the coarse level enabled and returning
`coarseDoc`, the standard level returning `chunkDoc`, and budget 5, the code
returns only the standard-level document, while the merge described by the
claim (coarse before standard) would return both, coarse first. -/
theorem c1_counterexample :
    MultilevelIndex.retrieve 5
      ⟨true, true, .ok [coarseDoc]⟩ ⟨true, true, .ok [chunkDoc]⟩
      ⟨true, false, .ok []⟩ = .ok [chunkDoc]
    ∧ specMergeLevels 5 [(true, [coarseDoc]), (true, [chunkDoc]), (false, [])]
        = [coarseDoc, chunkDoc]
    ∧ ([chunkDoc] : List Doc) ≠ [coarseDoc, chunkDoc] := by
  refine ⟨rfl, rfl, ?_⟩
  decide

/-- Claim C1 (amended): provided every active level's provider succeeds,
`retrieve` equals the spec's dedup-append-truncate merge applied to the
standard and fine levels only — the coarse level contributes no items
(its slot in the merge is empty even when active). -/
theorem c1_retrieve_merges_standard_and_fine_only
    (topK : Nat) (l1 l2 l3 : LevelCfg) (d2 d3 : List Doc)
    (h1 : l1.active = true → ∃ d, l1.result = .ok d)
    (h2 : l2.active = true → l2.result = .ok d2)
    (h3 : l3.active = true → l3.result = .ok d3) :
    MultilevelIndex.retrieve topK l1 l2 l3 =
      .ok (specMergeLevels topK
        [(l1.active, []), (l2.active, d2), (l3.active, d3)]) := by
  unfold LevelCfg.active at h1 h2 h3
  cases hb1 : l1.store && l1.enabled with
  | true =>
    obtain ⟨d1, hd1⟩ := h1 hb1
    cases hb2 : l2.store && l2.enabled with
    | true =>
      have e2 := h2 hb2
      cases hb3 : l3.store && l3.enabled with
      | true =>
        have e3 := h3 hb3
        simp [MultilevelIndex.retrieve, specMergeLevels, LevelCfg.active,
          pure, Except.pure, bind, Except.bind, Functor.map, Except.map, *]
      | false =>
        simp [MultilevelIndex.retrieve, specMergeLevels, LevelCfg.active,
          pure, Except.pure, bind, Except.bind, Functor.map, Except.map, *]
    | false =>
      cases hb3 : l3.store && l3.enabled with
      | true =>
        have e3 := h3 hb3
        simp [MultilevelIndex.retrieve, specMergeLevels, LevelCfg.active,
          pure, Except.pure, bind, Except.bind, Functor.map, Except.map, *]
      | false =>
        simp [MultilevelIndex.retrieve, specMergeLevels, LevelCfg.active,
          pure, Except.pure, bind, Except.bind, Functor.map, Except.map, *]
  | false =>
    cases hb2 : l2.store && l2.enabled with
    | true =>
      have e2 := h2 hb2
      cases hb3 : l3.store && l3.enabled with
      | true =>
        have e3 := h3 hb3
        simp [MultilevelIndex.retrieve, specMergeLevels, LevelCfg.active,
          pure, Except.pure, bind, Except.bind, Functor.map, Except.map, *]
      | false =>
        simp [MultilevelIndex.retrieve, specMergeLevels, LevelCfg.active,
          pure, Except.pure, bind, Except.bind, Functor.map, Except.map, *]
    | false =>
      cases hb3 : l3.store && l3.enabled with
      | true =>
        have e3 := h3 hb3
        simp [MultilevelIndex.retrieve, specMergeLevels, LevelCfg.active,
          pure, Except.pure, bind, Except.bind, Functor.map, Except.map, *]
      | false =>
        simp [MultilevelIndex.retrieve, specMergeLevels, LevelCfg.active,
          pure, Except.pure, bind, Except.bind, Functor.map, Except.map, *]

/-- Claim C1 (amended, witness). -/
theorem c1_retrieve_merges_standard_and_fine_only_witness :
    MultilevelIndex.retrieve 5
      ⟨true, true, .ok [coarseDoc]⟩ ⟨true, true, .ok [chunkDoc]⟩
      ⟨true, false, .ok []⟩ =
      .ok (specMergeLevels 5 [(true, []), (true, [chunkDoc]), (false, [])]) :=
  c1_retrieve_merges_standard_and_fine_only 5
    ⟨true, true, .ok [coarseDoc]⟩ ⟨true, true, .ok [chunkDoc]⟩
    ⟨true, false, .ok []⟩ [chunkDoc] []
    (fun _ => ⟨[coarseDoc], rfl⟩) (fun _ => rfl)
    (fun h => by simp [LevelCfg.active] at h)

/-- Claim C2 (counterexample): with only the standard level active and its
provider raising, `retrieve` propagates the exception instead of treating
the failure as zero results and returning an empty sequence. -/
theorem c2_counterexample :
    MultilevelIndex.retrieve 5
      ⟨false, true, .ok []⟩ ⟨true, true, .error "backend down"⟩
      ⟨false, true, .ok []⟩ = .error "backend down"
    ∧ (Except.error "backend down" : Except String (List Doc)) ≠ .ok [] := by
  refine ⟨rfl, ?_⟩
  intro h
  exact Except.noConfusion h

/-- Claim C2 (amended): `retrieve` contains no exception handling: it
succeeds iff every active level's provider succeeded (so a provider
exception always propagates to the caller), and it returns the empty
sequence when every active level succeeds with zero results. -/
theorem c2_retrieve_propagates_provider_exceptions
    (topK : Nat) (l1 l2 l3 : LevelCfg) :
    ((∃ xs, MultilevelIndex.retrieve topK l1 l2 l3 = .ok xs) ↔
      ((l1.active = true → l1.succeeded = true)
        ∧ (l2.active = true → l2.succeeded = true)
        ∧ (l3.active = true → l3.succeeded = true)))
    ∧ ((l1.active = true → l1.result = .ok [])
        → (l2.active = true → l2.result = .ok [])
        → (l3.active = true → l3.result = .ok [])
        → MultilevelIndex.retrieve topK l1 l2 l3 = .ok []) := by
  cases hb1 : l1.store && l1.enabled <;>
    cases hb2 : l2.store && l2.enabled <;>
      cases hb3 : l3.store && l3.enabled <;>
        cases hr1 : l1.result <;> cases hr2 : l2.result <;>
          cases hr3 : l3.result <;>
            simp [MultilevelIndex.retrieve, LevelCfg.active,
              LevelCfg.succeeded, pure, Except.pure, bind, Except.bind,
              Functor.map, Except.map, hb1, hb2, hb3, hr1, hr2, hr3] <;>
              try (intros; subst_vars; simp)

/-- Claim C2 (amended, witness). -/
theorem c2_retrieve_propagates_provider_exceptions_witness :
    (∃ xs, MultilevelIndex.retrieve 5
      ⟨false, true, .ok []⟩ ⟨true, true, .error "backend down"⟩
      ⟨false, true, .ok []⟩ = .ok xs) ↔
      ((LevelCfg.active ⟨false, true, .ok []⟩ = true
          → LevelCfg.succeeded ⟨false, true, (.ok [] : Except String (List Doc))⟩ = true)
        ∧ (LevelCfg.active ⟨true, true, .error "backend down"⟩ = true
          → LevelCfg.succeeded ⟨true, true, (.error "backend down" : Except String (List Doc))⟩ = true)
        ∧ (LevelCfg.active ⟨false, true, .ok []⟩ = true
          → LevelCfg.succeeded ⟨false, true, (.ok [] : Except String (List Doc))⟩ = true)) :=
  (c2_retrieve_propagates_provider_exceptions 5
    ⟨false, true, .ok []⟩ ⟨true, true, .error "backend down"⟩
    ⟨false, true, .ok []⟩).1

/-! ### Rational literals

Python float literals are modelled as rationals.  They are written as
explicit reduced numerator/denominator pairs so that kernel reduction can
evaluate comparisons on them; the `_eq` lemmas relate each to its usual
fraction form. -/

def q1_10 : Rat := ⟨1, 10, by norm_num, by norm_num⟩

def q3_10 : Rat := ⟨3, 10, by norm_num, by norm_num⟩

def q1_2 : Rat := ⟨1, 2, by norm_num, by norm_num⟩

def q7_10 : Rat := ⟨7, 10, by norm_num, by norm_num⟩

def q4_5 : Rat := ⟨4, 5, by norm_num, by norm_num⟩

def q9_10 : Rat := ⟨9, 10, by norm_num, by norm_num⟩

def q19_20 : Rat := ⟨19, 20, by norm_num, by norm_num⟩

theorem q1_10_eq : q1_10 = 1/10 := by
  rw [q1_10, Rat.mk'_eq_divInt, Rat.divInt_eq_div]; norm_num

theorem q3_10_eq : q3_10 = 3/10 := by
  rw [q3_10, Rat.mk'_eq_divInt, Rat.divInt_eq_div]; norm_num

theorem q1_2_eq : q1_2 = 1/2 := by
  rw [q1_2, Rat.mk'_eq_divInt, Rat.divInt_eq_div]; norm_num

theorem q7_10_eq : q7_10 = 7/10 := by
  rw [q7_10, Rat.mk'_eq_divInt, Rat.divInt_eq_div]; norm_num

theorem q4_5_eq : q4_5 = 4/5 := by
  rw [q4_5, Rat.mk'_eq_divInt, Rat.divInt_eq_div]; norm_num

theorem q9_10_eq : q9_10 = 9/10 := by
  rw [q9_10, Rat.mk'_eq_divInt, Rat.divInt_eq_div]; norm_num

theorem q19_20_eq : q19_20 = 19/20 := by
  rw [q19_20, Rat.mk'_eq_divInt, Rat.divInt_eq_div]; norm_num

/-! ## ReAct agent (`src/agent/react_agent.py`, `src/agent/action_executor.py`) -/

/-- The dictionary produced by `ReasoningEngine.reason` as consumed by the
loop (`thought` / `action` / `action_input` / `confidence`). -/
structure ReasonResult where
  thought : String
  action : String
  actionInput : String
  confidence : Rat
  deriving DecidableEq, Repr

/-- The dictionary produced by `ReasoningEngine.validate_answer`. -/
structure ValidationResult where
  consistent : Bool
  score : Rat
  reason : String
  deriving DecidableEq, Repr

/-- The result record built by `ActionExecutor.execute` as consumed by the
loop: status, human-readable result text, and produced documents (the
purely informational `query_used` / `tool_name` extras are never read by
the caller and are omitted). -/
structure ActionResult where
  status : String
  result : String
  documents : List Doc
  deriving DecidableEq, Repr

/-- One entry of the loop's `execution_path`.  The Python entries are
dictionaries whose key sets differ by append site; keys that a given site
does not write are `none` here (`.get` defaults then apply on read). -/
structure ExecStep where
  iteration : Nat
  thought : String
  action : String
  actionInput : Option String
  result : String
  confidence : Option Rat
  validation : Option ValidationResult
  deriving DecidableEq, Repr

/-- The record returned by `ReActAgent.react_loop`. -/
structure LoopResult where
  answer : String
  confidence : Rat
  score : Rat
  sources : List String
  executionPath : List ExecStep
  iterations : Nat
  deriving DecidableEq, Repr

/-- The loop's mutable state between iterations. -/
structure LoopState where
  context : List Doc
  path : List ExecStep
  previousReasoning : Option String
  bestAnswer : Option String
  bestScore : Rat
  deriving DecidableEq, Repr

/-- The agent's configuration (`config.agent`). -/
structure AgentCfg where
  maxIterations : Nat
  confidenceThreshold : Rat
  enableReretrieval : Bool
  enableReplanning : Bool
  deriving Repr

/-- The external collaborators the loop calls: the reasoning engine
(which catches its own oracle failures, hence total), the validator
(likewise total), the retriever, the generator and the tool registry.
All are nondeterministic external calls; their outcomes are modelled as
functions of the iteration index on which the call happens, in addition to
the arguments the Python code passes. -/
structure Env where
  reason : Nat → String → List Doc → Option String → ReasonResult
  validate : Nat → String → String → String → List Doc → ValidationResult
  hasRetriever : Bool
  searchDocs : Nat → String → Except String (List Doc)
  retrieveK : Nat → String → Nat → Except String (List Doc)
  hasGenerator : Bool
  generate : Nat → String → List Doc → Except String String
  hasToolRegistry : Bool
  callTool : Nat → String → String → String → Except String String

/-- Python `str.strip()` on a character list: drop leading and trailing
whitespace.  (Core `String.trim` is avoided throughout: it does not reduce
under kernel evaluation.) -/
def trimChars (cs : List Char) : List Char :=
  ((cs.dropWhile Char.isWhitespace).reverse.dropWhile Char.isWhitespace).reverse

/-- Python `str.strip()`. -/
def pyStrip (s : String) : String := String.mk (trimChars s.data)

/-- Python `s.split(":", 1)` viewed as the part before the first colon and
(when a colon exists) the part after it. -/
def breakAtColon : List Char → List Char × Option (List Char)
  | [] => ([], none)
  | c :: cs =>
    if c = ':' then ([], some cs)
    else
      let p := breakAtColon cs
      (c :: p.1, p.2)

/-- `ActionExecutor._execute_search`: empty (stripped) action input falls
back to the original query; a retriever exception is caught and reported
as an error result with no documents. -/
def ActionExecutor.executeSearch (env : Env) (i : Nat)
    (searchQuery origQuery : String) : ActionResult :=
  if !env.hasRetriever then
    ⟨"error", "检索器未初始化", []⟩
  else
    let q := if (trimChars searchQuery.data).isEmpty then origQuery
      else pyStrip searchQuery
    match env.searchDocs i q with
    | .ok docs =>
      ⟨"success", "检索到 " ++ toString docs.length ++ " 个相关文档", docs⟩
    | .error e => ⟨"error", "检索失败: " ++ e, []⟩

/-- `ActionExecutor._execute_answer`: a non-empty input is a pre-computed
answer; otherwise the generator is called; exceptions are caught and the
context is returned as the documents either way. -/
def ActionExecutor.executeAnswer (env : Env) (i : Nat)
    (answerInput query : String) (context : List Doc) : ActionResult :=
  if !env.hasGenerator then
    ⟨"success", if answerInput.data.isEmpty then "无法生成答案" else answerInput,
      context⟩
  else if !(trimChars answerInput.data).isEmpty then
    ⟨"success", answerInput, context⟩
  else
    match env.generate i query context with
    | .ok a => ⟨"success", a, context⟩
    | .error e => ⟨"error", "生成答案失败: " ++ e, context⟩

/-- `ActionExecutor._execute_tool_call`: split `tool_input` on the first
colon into name and params; a missing registry or a tool exception gives
an error result; success wraps the tool output as a synthetic document
whose source is `tool:{name}`. -/
def ActionExecutor.executeToolCall (env : Env) (i : Nat)
    (toolInput query : String) : ActionResult :=
  if !env.hasToolRegistry then
    ⟨"error", "工具注册表未初始化", []⟩
  else
    let parts := breakAtColon toolInput.data
    let toolName := String.mk (trimChars parts.1)
    let toolParams := String.mk (trimChars (parts.2.getD []))
    match env.callTool i toolName toolParams query with
    | .ok r => ⟨"success", r, [⟨r, some ("tool:" ++ toolName), none⟩]⟩
    | .error e => ⟨"error", "工具调用失败: " ++ e, []⟩

/-- `ActionExecutor.execute`: dispatch on the action string; an unknown
action is an error result with no side effect. -/
def ActionExecutor.execute (env : Env) (i : Nat)
    (action actionInput query : String) (context : List Doc) : ActionResult :=
  if action = "search" then
    ActionExecutor.executeSearch env i actionInput query
  else if action = "answer" then
    ActionExecutor.executeAnswer env i actionInput query context
  else if action = "tool_call" then
    ActionExecutor.executeToolCall env i actionInput query
  else
    ⟨"error", "未知动作: " ++ action, []⟩

/-- `BaseRetriever.expand_retrieval`: widen `top_k` by the expansion factor
and retrieve (which may raise; `BaseRetriever.retrieve` re-raises). -/
def BaseRetriever.expandRetrieval (env : Env) (i : Nat) (query : String)
    (originalTopK expansionFactor : Nat) : Except String (List Doc) :=
  env.retrieveK i query (originalTopK * expansionFactor)

/-- `ActionExecutor.expand_retrieval`: no retriever gives an empty list;
otherwise delegate to the retriever's expand call. -/
def ActionExecutor.expandRetrieval (env : Env) (i : Nat) (query : String)
    (originalTopK expansionFactor : Nat) : Except String (List Doc) :=
  if !env.hasRetriever then .ok []
  else BaseRetriever.expandRetrieval env i query originalTopK expansionFactor

/-- `ReActAgent._deduplicate_documents`' loop with its `seen` set made
explicit: keep a document iff its identity key was not seen before. -/
def dedupAux : List Doc → List String → List Doc
  | [], _ => []
  | d :: ds, seen =>
    if docKey d ∈ seen then dedupAux ds seen
    else d :: dedupAux ds (docKey d :: seen)

/-- `ReActAgent._deduplicate_documents`. -/
def dedupDocs (docs : List Doc) : List Doc := dedupAux docs []

/-- `ReActAgent._replan`: summarize the last up-to-3 execution steps
(original thought truncated to 100 characters each), the failure reason and
the query into the next reasoning prompt. -/
def ReActAgent.replan (originalPath : List ExecStep)
    (failureReason query : String) : String :=
  let pathSummary := String.intercalate "\n"
    ((originalPath.drop (originalPath.length - 3)).map
      (fun step =>
        "迭代 " ++ toString step.iteration ++ ": " ++
          String.mk (step.thought.data.take 100)))
  "之前的执行路径：\n" ++ pathSummary ++ "\n\n失败原因：" ++ failureReason ++
    "\n\n问题：" ++ query ++ "\n\n请重新规划一个更好的执行路径，避免之前的错误。"

/-- `[doc.metadata.get("source", "unknown") for doc in context]`. -/
def sourcesOf (context : List Doc) : List String :=
  context.map (fun d => d.source.getD "unknown")

/-- Python truthiness of `best_answer` (an optional string): `None` and the
empty string are falsy. -/
def pyTruthyOpt : Option String → Bool
  | none => false
  | some s => !s.data.isEmpty

/-- One iteration of `ReActAgent.react_loop` (the body of the `for` loop):
reason, then either the confidence-gated re-retrieval (which can re-raise a
retriever exception — the call is not inside any `try`), or execute the
action; an `answer` action is validated and subject to the re-planning gate,
the best answer/score update, and the early-success return; any other
action merges its documents and updates the running summary.
`Sum.inl` is the next state, `Sum.inr` an early return. -/
def ReActAgent.reactStep (env : Env) (cfg : AgentCfg) (query : String)
    (iteration : Nat) (st : LoopState) :
    Except String (LoopState ⊕ LoopResult) := do
  let r := env.reason iteration query st.context st.previousReasoning
  if cfg.enableReretrieval = true ∧ r.confidence < cfg.confidenceThreshold ∧
      r.action = "answer" ∧ iteration + 1 < cfg.maxIterations then
    let expandedDocs ← ActionExecutor.expandRetrieval env iteration query
      (if st.context.isEmpty then 5 else st.context.length) 4
    pure (Sum.inl { st with
      context := dedupDocs (st.context ++ expandedDocs),
      path := st.path ++ [⟨iteration + 1, r.thought, "reretrieval", none,
        "扩大检索，新增 " ++ toString expandedDocs.length ++ " 个文档",
        some r.confidence, none⟩] })
  else
    let ar := ActionExecutor.execute env iteration r.action r.actionInput
      query st.context
    if r.action = "answer" then
      let answer := ar.result
      let v := env.validate iteration query r.thought answer st.context
      if v.consistent = false ∧ cfg.enableReplanning = true ∧
          iteration + 1 < cfg.maxIterations then
        pure (Sum.inl { st with
          previousReasoning := some (ReActAgent.replan st.path v.reason query),
          path := st.path ++ [⟨iteration + 1, r.thought, r.action, none,
            "答案不一致，重新规划", none, some v⟩] })
      else
        let newBestAnswer :=
          if st.bestScore < v.score then some answer else st.bestAnswer
        let newBestScore :=
          if st.bestScore < v.score then v.score else st.bestScore
        if q9_10 ≤ v.score ∧ v.consistent = true then
          pure (Sum.inr {
            answer := answer, confidence := r.confidence, score := v.score,
            sources := sourcesOf st.context,
            executionPath := st.path ++ [⟨iteration + 1, r.thought, r.action,
              none, answer, some r.confidence, some v⟩],
            iterations := iteration + 1 })
        else
          pure (Sum.inl { st with
            bestAnswer := newBestAnswer, bestScore := newBestScore,
            path := st.path ++ [⟨iteration + 1, r.thought, r.action, none,
              answer, some r.confidence, some v⟩] })
    else
      pure (Sum.inl { st with
        context := dedupDocs (st.context ++ ar.documents),
        path := st.path ++ [⟨iteration + 1, r.thought, r.action,
          some r.actionInput, ar.result, some r.confidence, none⟩],
        previousReasoning :=
          some (r.thought ++ "\n动作: " ++ r.action ++ "\n结果: " ++ ar.result) })

/-- `final_answer = best_answer or execution_path[-1].get("result", ...)`:
a falsy best answer indexes the path, which raises `IndexError` when the
path is empty (the `.get` default never applies since every appended step
has a `result` key). -/
def ReActAgent.finalAnswer (st : LoopState) : Except String String :=
  if pyTruthyOpt st.bestAnswer then .ok (st.bestAnswer.getD "")
  else
    match st.path.getLast? with
    | some step => .ok step.result
    | none => .error "IndexError: list index out of range"

/-- The record built after the loop exhausts its iterations (react_agent.py
lines 210-222). -/
def ReActAgent.finalReturn (st : LoopState) : Except String LoopResult := do
  let answer ← ReActAgent.finalAnswer st
  pure {
    answer := answer,
    confidence :=
      match st.path.getLast? with
      | some step => step.confidence.getD q1_2
      | none => q1_2,
    score := st.bestScore,
    sources := sourcesOf st.context,
    executionPath := st.path,
    iterations := st.path.length }

/-- `for iteration in range(max_iterations)` with early return:
`remaining` counts the iterations left, `iteration` the 0-based index. -/
def ReActAgent.reactLoopAux (env : Env) (cfg : AgentCfg) (query : String) :
    Nat → Nat → LoopState → Except String LoopResult
  | 0, _, st => ReActAgent.finalReturn st
  | remaining + 1, iteration, st => do
    match ← ReActAgent.reactStep env cfg query iteration st with
    | .inl st' => ReActAgent.reactLoopAux env cfg query remaining (iteration + 1) st'
    | .inr res => pure res

/-- The loop's initial state (react_agent.py lines 60-64). -/
def ReActAgent.initState (initialContext : List Doc) : LoopState :=
  { context := initialContext, path := [], previousReasoning := none,
    bestAnswer := none, bestScore := 0 }

/-- `ReActAgent.react_loop(query, initial_context)`. -/
def ReActAgent.reactLoop (env : Env) (cfg : AgentCfg) (query : String)
    (initialContext : List Doc) : Except String LoopResult :=
  ReActAgent.reactLoopAux env cfg query cfg.maxIterations 0
    (ReActAgent.initState initialContext)

/-- A default environment for concrete runs: no retriever, generator or
tool registry, a constant reasoning step and a constant validation. -/
def baseEnv : Env where
  reason := fun _ _ _ _ => ⟨"", "answer", "", q1_2⟩
  validate := fun _ _ _ _ _ => ⟨true, q7_10, ""⟩
  hasRetriever := false
  searchDocs := fun _ _ => .ok []
  retrieveK := fun _ _ _ => .ok []
  hasGenerator := false
  generate := fun _ _ _ => .ok ""
  hasToolRegistry := false
  callTool := fun _ _ _ _ => .ok ""

/-- Claim C3: when an iteration executes an `answer` action (the
re-retrieval gate did not fire) and validation reports a consistent answer
with score at least 0.9, the loop returns at that very iteration with that
answer, the step's confidence, the validation score, the sources of the
accumulated evidence and the execution path extended by exactly this one
step — regardless of how many iterations were still allowed. -/
theorem c3_early_success_terminates_immediately
    (env : Env) (cfg : AgentCfg) (query : String) (rem i : Nat)
    (st : LoopState) (r : ReasonResult) (v : ValidationResult)
    (hr : env.reason i query st.context st.previousReasoning = r)
    (hgate : ¬(cfg.enableReretrieval = true ∧
      r.confidence < cfg.confidenceThreshold ∧
      r.action = "answer" ∧ i + 1 < cfg.maxIterations))
    (hact : r.action = "answer")
    (hv : env.validate i query r.thought
      (ActionExecutor.execute env i r.action r.actionInput query
        st.context).result st.context = v)
    (hcons : v.consistent = true)
    (hscore : (9 : Rat)/10 ≤ v.score) :
    ReActAgent.reactLoopAux env cfg query (rem + 1) i st =
      .ok { answer := (ActionExecutor.execute env i r.action r.actionInput
                query st.context).result,
            confidence := r.confidence, score := v.score,
            sources := sourcesOf st.context,
            executionPath := st.path ++ [⟨i + 1, r.thought, r.action, none,
              (ActionExecutor.execute env i r.action r.actionInput query
                st.context).result,
              some r.confidence, some v⟩],
            iterations := i + 1 } := by
  have hstep : ReActAgent.reactStep env cfg query i st =
      .ok (Sum.inr
        { answer := (ActionExecutor.execute env i r.action r.actionInput query st.context).result,
          confidence := r.confidence, score := v.score,
          sources := sourcesOf st.context,
          executionPath := st.path ++ [⟨i + 1, r.thought, r.action, none,
            (ActionExecutor.execute env i r.action r.actionInput query st.context).result,
            some r.confidence, some v⟩],
          iterations := i + 1 }) := by
    unfold ReActAgent.reactStep
    simp only [hr]
    rw [if_neg hgate, if_pos hact, hv]
    rw [if_neg (by simp [hcons])]
    rw [if_pos ⟨by rw [q9_10_eq]; exact hscore, hcons⟩]
    rfl
  unfold ReActAgent.reactLoopAux
  rw [hstep]
  rfl

/-- Claim C3 (witness). -/
theorem c3_early_success_terminates_immediately_witness :
    ReActAgent.reactLoopAux
      { baseEnv with
        reason := fun _ _ _ _ => ⟨"t", "answer", "A", q4_5⟩,
        validate := fun _ _ _ _ _ => ⟨true, q19_20, "ok"⟩ }
      ⟨5, q7_10, false, true⟩ "q" (4 + 1) 0 (ReActAgent.initState []) =
      .ok { answer := "A", confidence := q4_5, score := q19_20,
            sources := [], executionPath := [⟨1, "t", "answer", none, "A",
              some q4_5, some ⟨true, q19_20, "ok"⟩⟩],
            iterations := 1 } :=
  c3_early_success_terminates_immediately
    { baseEnv with
      reason := fun _ _ _ _ => ⟨"t", "answer", "A", q4_5⟩,
      validate := fun _ _ _ _ _ => ⟨true, q19_20, "ok"⟩ }
    ⟨5, q7_10, false, true⟩ "q" 4 0 (ReActAgent.initState [])
    ⟨"t", "answer", "A", q4_5⟩ ⟨true, q19_20, "ok"⟩ rfl
    (by intro h; exact absurd h.1 (by decide)) rfl rfl rfl
    (by rw [q19_20_eq]; norm_num)

/-- Abbreviation for the validation result consulted by an `answer`
iteration of the loop (the exact expression `reactStep` evaluates). -/
def stepValidation (env : Env) (query : String) (i : Nat) (st : LoopState) :
    ValidationResult :=
  env.validate i query
    (env.reason i query st.context st.previousReasoning).thought
    (ActionExecutor.execute env i
      (env.reason i query st.context st.previousReasoning).action
      (env.reason i query st.context st.previousReasoning).actionInput
      query st.context).result
    st.context

theorem reactStep_gate_eq (env : Env) (cfg : AgentCfg) (query : String)
    (i : Nat) (st : LoopState) (r : ReasonResult)
    (hr : env.reason i query st.context st.previousReasoning = r)
    (hgate : cfg.enableReretrieval = true ∧
      r.confidence < cfg.confidenceThreshold ∧
      r.action = "answer" ∧ i + 1 < cfg.maxIterations) :
    ReActAgent.reactStep env cfg query i st =
      (ActionExecutor.expandRetrieval env i query
          (if st.context.isEmpty then 5 else st.context.length) 4).map
        (fun ds => Sum.inl { st with
          context := dedupDocs (st.context ++ ds),
          path := st.path ++ [⟨i + 1, r.thought, "reretrieval", none,
            "扩大检索，新增 " ++ toString ds.length ++ " 个文档",
            some r.confidence, none⟩] }) := by
  unfold ReActAgent.reactStep
  simp only [hr]
  rw [if_pos hgate]
  cases ActionExecutor.expandRetrieval env i query
      (if st.context.isEmpty then 5 else st.context.length) 4 with
  | error e => rfl
  | ok ds => rfl

theorem reactStep_replan_eq (env : Env) (cfg : AgentCfg) (query : String)
    (i : Nat) (st : LoopState) (r : ReasonResult) (v : ValidationResult)
    (hr : env.reason i query st.context st.previousReasoning = r)
    (hv : env.validate i query r.thought
      (ActionExecutor.execute env i r.action r.actionInput query
        st.context).result st.context = v)
    (hgate : ¬(cfg.enableReretrieval = true ∧
      r.confidence < cfg.confidenceThreshold ∧
      r.action = "answer" ∧ i + 1 < cfg.maxIterations))
    (hact : r.action = "answer")
    (hre : v.consistent = false ∧ cfg.enableReplanning = true ∧
      i + 1 < cfg.maxIterations) :
    ReActAgent.reactStep env cfg query i st =
      .ok (Sum.inl { st with
        previousReasoning := some (ReActAgent.replan st.path v.reason query),
        path := st.path ++ [⟨i + 1, r.thought, r.action, none,
          "答案不一致，重新规划", none, some v⟩] }) := by
  unfold ReActAgent.reactStep
  simp only [hr]
  rw [if_neg hgate, if_pos hact, hv, if_pos hre]
  rfl

theorem reactStep_answer_eq (env : Env) (cfg : AgentCfg) (query : String)
    (i : Nat) (st : LoopState) (r : ReasonResult) (v : ValidationResult)
    (hr : env.reason i query st.context st.previousReasoning = r)
    (hv : env.validate i query r.thought
      (ActionExecutor.execute env i r.action r.actionInput query
        st.context).result st.context = v)
    (hgate : ¬(cfg.enableReretrieval = true ∧
      r.confidence < cfg.confidenceThreshold ∧
      r.action = "answer" ∧ i + 1 < cfg.maxIterations))
    (hact : r.action = "answer")
    (hre : ¬(v.consistent = false ∧ cfg.enableReplanning = true ∧
      i + 1 < cfg.maxIterations))
    (hearly : ¬(q9_10 ≤ v.score ∧ v.consistent = true)) :
    ReActAgent.reactStep env cfg query i st =
      .ok (Sum.inl { st with
        bestAnswer := if st.bestScore < v.score
          then some (ActionExecutor.execute env i r.action r.actionInput query st.context).result
          else st.bestAnswer,
        bestScore := if st.bestScore < v.score then v.score else st.bestScore,
        path := st.path ++ [⟨i + 1, r.thought, r.action, none,
          (ActionExecutor.execute env i r.action r.actionInput query st.context).result,
          some r.confidence, some v⟩] }) := by
  unfold ReActAgent.reactStep
  simp only [hr]
  rw [if_neg hgate, if_pos hact, hv, if_neg hre, if_neg hearly]
  rfl

theorem reactStep_early_eq (env : Env) (cfg : AgentCfg) (query : String)
    (i : Nat) (st : LoopState) (r : ReasonResult) (v : ValidationResult)
    (hr : env.reason i query st.context st.previousReasoning = r)
    (hv : env.validate i query r.thought
      (ActionExecutor.execute env i r.action r.actionInput query
        st.context).result st.context = v)
    (hgate : ¬(cfg.enableReretrieval = true ∧
      r.confidence < cfg.confidenceThreshold ∧
      r.action = "answer" ∧ i + 1 < cfg.maxIterations))
    (hact : r.action = "answer")
    (hearly : q9_10 ≤ v.score ∧ v.consistent = true) :
    ReActAgent.reactStep env cfg query i st =
      .ok (Sum.inr
        { answer := (ActionExecutor.execute env i r.action r.actionInput query st.context).result,
          confidence := r.confidence, score := v.score,
          sources := sourcesOf st.context,
          executionPath := st.path ++ [⟨i + 1, r.thought, r.action, none,
            (ActionExecutor.execute env i r.action r.actionInput query st.context).result,
            some r.confidence, some v⟩],
          iterations := i + 1 }) := by
  unfold ReActAgent.reactStep
  simp only [hr]
  rw [if_neg hgate, if_pos hact, hv,
    if_neg (by simp [hearly.2] : ¬(v.consistent = false ∧
      cfg.enableReplanning = true ∧ i + 1 < cfg.maxIterations)),
    if_pos hearly]
  rfl

theorem reactStep_other_eq (env : Env) (cfg : AgentCfg) (query : String)
    (i : Nat) (st : LoopState) (r : ReasonResult)
    (hr : env.reason i query st.context st.previousReasoning = r)
    (hgate : ¬(cfg.enableReretrieval = true ∧
      r.confidence < cfg.confidenceThreshold ∧
      r.action = "answer" ∧ i + 1 < cfg.maxIterations))
    (hnact : ¬(r.action = "answer")) :
    ReActAgent.reactStep env cfg query i st =
      .ok (Sum.inl { st with
        context := dedupDocs (st.context ++
          (ActionExecutor.execute env i r.action r.actionInput query st.context).documents),
        path := st.path ++ [⟨i + 1, r.thought, r.action, some r.actionInput,
          (ActionExecutor.execute env i r.action r.actionInput query st.context).result,
          some r.confidence, none⟩],
        previousReasoning := some (r.thought ++ "\n动作: " ++ r.action ++
          "\n结果: " ++
          (ActionExecutor.execute env i r.action r.actionInput query st.context).result) }) := by
  unfold ReActAgent.reactStep
  simp only [hr]
  rw [if_neg hgate, if_neg hnact]
  rfl

theorem reactStep_inl_bestScore (env : Env) (cfg : AgentCfg) (query : String)
    (i : Nat) (st st' : LoopState)
    (h : ReActAgent.reactStep env cfg query i st = .ok (.inl st')) :
    st'.bestScore = st.bestScore ∨
      (st.bestScore < (stepValidation env query i st).score ∧
        st'.bestScore = (stepValidation env query i st).score) := by
  by_cases hgate : cfg.enableReretrieval = true ∧
      (env.reason i query st.context st.previousReasoning).confidence <
        cfg.confidenceThreshold ∧
      (env.reason i query st.context st.previousReasoning).action = "answer" ∧
      i + 1 < cfg.maxIterations
  · rw [reactStep_gate_eq env cfg query i st _ rfl hgate] at h
    cases hexp : ActionExecutor.expandRetrieval env i query
        (if st.context.isEmpty then 5 else st.context.length) 4 with
    | error e =>
      rw [hexp] at h
      simp [Except.map] at h
    | ok ds =>
      rw [hexp] at h
      simp only [Except.map, Except.ok.injEq, Sum.inl.injEq] at h
      subst h
      left
      rfl
  · by_cases hact : (env.reason i query st.context st.previousReasoning).action = "answer"
    · by_cases hre : (stepValidation env query i st).consistent = false ∧
          cfg.enableReplanning = true ∧ i + 1 < cfg.maxIterations
      · rw [reactStep_replan_eq env cfg query i st _ _ rfl rfl hgate hact hre] at h
        simp only [Except.ok.injEq, Sum.inl.injEq] at h
        subst h
        left
        rfl
      · by_cases hearly : q9_10 ≤ (stepValidation env query i st).score ∧
            (stepValidation env query i st).consistent = true
        · rw [reactStep_early_eq env cfg query i st _ _ rfl rfl hgate hact hearly] at h
          simp at h
        · rw [reactStep_answer_eq env cfg query i st _ _ rfl rfl hgate hact hre hearly] at h
          simp only [Except.ok.injEq, Sum.inl.injEq] at h
          subst h
          by_cases hlt : st.bestScore < (stepValidation env query i st).score
          · right
            refine ⟨hlt, ?_⟩
            unfold stepValidation at hlt ⊢
            simp only [if_pos hlt]
          · left
            unfold stepValidation at hlt
            simp only [if_neg hlt]
    · rw [reactStep_other_eq env cfg query i st _ rfl hgate hact] at h
      simp only [Except.ok.injEq, Sum.inl.injEq] at h
      subst h
      left
      rfl

theorem reactStep_inl_context (env : Env) (cfg : AgentCfg) (query : String)
    (i : Nat) (st st' : LoopState)
    (h : ReActAgent.reactStep env cfg query i st = .ok (.inl st')) :
    st'.context = st.context ∨
      ∃ ds, st'.context = dedupDocs (st.context ++ ds) := by
  by_cases hgate : cfg.enableReretrieval = true ∧
      (env.reason i query st.context st.previousReasoning).confidence <
        cfg.confidenceThreshold ∧
      (env.reason i query st.context st.previousReasoning).action = "answer" ∧
      i + 1 < cfg.maxIterations
  · rw [reactStep_gate_eq env cfg query i st _ rfl hgate] at h
    cases hexp : ActionExecutor.expandRetrieval env i query
        (if st.context.isEmpty then 5 else st.context.length) 4 with
    | error e =>
      rw [hexp] at h
      simp [Except.map] at h
    | ok ds =>
      rw [hexp] at h
      simp only [Except.map, Except.ok.injEq, Sum.inl.injEq] at h
      subst h
      exact Or.inr ⟨ds, rfl⟩
  · by_cases hact : (env.reason i query st.context st.previousReasoning).action = "answer"
    · by_cases hre : (stepValidation env query i st).consistent = false ∧
          cfg.enableReplanning = true ∧ i + 1 < cfg.maxIterations
      · rw [reactStep_replan_eq env cfg query i st _ _ rfl rfl hgate hact hre] at h
        simp only [Except.ok.injEq, Sum.inl.injEq] at h
        subst h
        left
        rfl
      · by_cases hearly : q9_10 ≤ (stepValidation env query i st).score ∧
            (stepValidation env query i st).consistent = true
        · rw [reactStep_early_eq env cfg query i st _ _ rfl rfl hgate hact hearly] at h
          simp at h
        · rw [reactStep_answer_eq env cfg query i st _ _ rfl rfl hgate hact hre hearly] at h
          simp only [Except.ok.injEq, Sum.inl.injEq] at h
          subst h
          left
          rfl
    · rw [reactStep_other_eq env cfg query i st _ rfl hgate hact] at h
      simp only [Except.ok.injEq, Sum.inl.injEq] at h
      subst h
      exact Or.inr ⟨_, rfl⟩

theorem reactStep_inr_score (env : Env) (cfg : AgentCfg) (query : String)
    (i : Nat) (st : LoopState) (res : LoopResult)
    (h : ReActAgent.reactStep env cfg query i st = .ok (.inr res)) :
    res.score = (stepValidation env query i st).score := by
  by_cases hgate : cfg.enableReretrieval = true ∧
      (env.reason i query st.context st.previousReasoning).confidence <
        cfg.confidenceThreshold ∧
      (env.reason i query st.context st.previousReasoning).action = "answer" ∧
      i + 1 < cfg.maxIterations
  · rw [reactStep_gate_eq env cfg query i st _ rfl hgate] at h
    cases hexp : ActionExecutor.expandRetrieval env i query
        (if st.context.isEmpty then 5 else st.context.length) 4 with
    | error e =>
      rw [hexp] at h
      simp [Except.map] at h
    | ok ds =>
      rw [hexp] at h
      simp [Except.map] at h
  · by_cases hact : (env.reason i query st.context st.previousReasoning).action = "answer"
    · by_cases hre : (stepValidation env query i st).consistent = false ∧
          cfg.enableReplanning = true ∧ i + 1 < cfg.maxIterations
      · rw [reactStep_replan_eq env cfg query i st _ _ rfl rfl hgate hact hre] at h
        simp at h
      · by_cases hearly : q9_10 ≤ (stepValidation env query i st).score ∧
            (stepValidation env query i st).consistent = true
        · rw [reactStep_early_eq env cfg query i st _ _ rfl rfl hgate hact hearly] at h
          simp only [Except.ok.injEq, Sum.inr.injEq] at h
          subst h
          rfl
        · rw [reactStep_answer_eq env cfg query i st _ _ rfl rfl hgate hact hre hearly] at h
          simp at h
    · rw [reactStep_other_eq env cfg query i st _ rfl hgate hact] at h
      simp at h

theorem dedupAux_not_seen (l : List Doc) :
    ∀ seen d, d ∈ dedupAux l seen → docKey d ∉ seen := by
  induction l with
  | nil => intro seen d hd; simp [dedupAux] at hd
  | cons x xs ih =>
    intro seen d hd
    simp only [dedupAux] at hd
    by_cases hx : docKey x ∈ seen
    · rw [if_pos hx] at hd
      exact ih seen d hd
    · rw [if_neg hx] at hd
      rcases List.mem_cons.mp hd with rfl | hd'
      · exact hx
      · intro hs
        exact ih (docKey x :: seen) d hd' (List.mem_cons_of_mem _ hs)

theorem dedupAux_keys_nodup (l : List Doc) :
    ∀ seen, ((dedupAux l seen).map docKey).Nodup := by
  induction l with
  | nil => intro seen; simp [dedupAux]
  | cons x xs ih =>
    intro seen
    simp only [dedupAux]
    by_cases hx : docKey x ∈ seen
    · rw [if_pos hx]
      exact ih seen
    · rw [if_neg hx]
      simp only [List.map_cons, List.nodup_cons]
      refine ⟨?_, ih (docKey x :: seen)⟩
      intro hmem
      rcases List.mem_map.mp hmem with ⟨d, hd, hkey⟩
      exact dedupAux_not_seen xs (docKey x :: seen) d hd
        (hkey ▸ List.mem_cons_self _ _)

theorem dedupAux_sublist (l : List Doc) :
    ∀ seen, List.Sublist (dedupAux l seen) l := by
  induction l with
  | nil => intro seen; simp [dedupAux]
  | cons x xs ih =>
    intro seen
    simp only [dedupAux]
    by_cases hx : docKey x ∈ seen
    · rw [if_pos hx]
      exact (ih seen).trans (List.sublist_cons_self x xs)
    · rw [if_neg hx]
      exact (ih (docKey x :: seen)).cons₂ x

theorem dedupAux_mem_of_first (xs : List Doc) :
    ∀ (seen : List String) (d : Doc) (ys : List Doc),
      docKey d ∉ seen → docKey d ∉ xs.map docKey →
      d ∈ dedupAux (xs ++ d :: ys) seen := by
  induction xs with
  | nil =>
    intro seen d ys h1 _
    simp only [List.nil_append, dedupAux]
    rw [if_neg h1]
    exact List.mem_cons_self _ _
  | cons x xs ih =>
    intro seen d ys h1 h2
    simp only [List.cons_append, dedupAux]
    have hne : docKey d ≠ docKey x := by
      intro he
      exact h2 (by rw [List.map_cons]; exact he ▸ List.mem_cons_self _ _)
    have h2' : docKey d ∉ xs.map docKey := by
      intro hm
      exact h2 (by rw [List.map_cons]; exact List.mem_cons_of_mem _ hm)
    by_cases hx : docKey x ∈ seen
    · rw [if_pos hx]
      exact ih seen d ys h1 h2'
    · rw [if_neg hx]
      refine List.mem_cons_of_mem _ (ih (docKey x :: seen) d ys ?_ h2')
      intro hm
      rcases List.mem_cons.mp hm with he | hs
      · exact hne he
      · exact h1 hs

/-- Claim C4 (amended): `bestScore` starts at 0.0 and is monotonically
non-decreasing: a loop step changes it only by replacing it with a
validated-answer score strictly greater than the current value.  The
`score` field of a budget-exhausted return equals `bestScore`, but an
early-success return carries the terminating iteration's own validated
score, which may be smaller than the recorded `bestScore` (see the
counterexample), so the returned score is not in general the maximum
validated score recorded. -/
theorem c4_best_score_monotone (env : Env) (cfg : AgentCfg) (query : String)
    (i : Nat) (st : LoopState) :
    (∀ st', ReActAgent.reactStep env cfg query i st = .ok (.inl st') →
      st.bestScore ≤ st'.bestScore ∧
        (st'.bestScore ≠ st.bestScore →
          st.bestScore < st'.bestScore ∧
            st'.bestScore = (stepValidation env query i st).score))
    ∧ (∀ res, ReActAgent.reactStep env cfg query i st = .ok (.inr res) →
        res.score = (stepValidation env query i st).score)
    ∧ (∀ res, ReActAgent.finalReturn st = .ok res → res.score = st.bestScore)
    ∧ (∀ ctx, (ReActAgent.initState ctx).bestScore = 0) := by
  refine ⟨?_, ?_, ?_, fun _ => rfl⟩
  · intro st' h
    rcases reactStep_inl_bestScore env cfg query i st st' h with heq | ⟨hlt, heq⟩
    · exact ⟨le_of_eq heq.symm, fun hne => absurd heq hne⟩
    · exact ⟨le_of_lt (heq ▸ hlt), fun _ => ⟨heq ▸ hlt, heq⟩⟩
  · exact fun res h => reactStep_inr_score env cfg query i st res h
  · intro res h
    unfold ReActAgent.finalReturn at h
    cases hfa : ReActAgent.finalAnswer st with
    | error e =>
      rw [hfa] at h
      simp [bind, Except.bind] at h
    | ok a =>
      rw [hfa] at h
      simp only [bind, Except.bind, pure, Except.pure, Except.ok.injEq] at h
      subst h
      rfl

def c4StepState : LoopState := ReActAgent.initState []

def c4NextState : LoopState :=
  { context := [],
    path := [⟨1, "", "answer", none, "无法生成答案", some q1_2,
      some ⟨true, q7_10, ""⟩⟩],
    previousReasoning := none, bestAnswer := some "无法生成答案",
    bestScore := q7_10 }

/-- Claim C4 (amended, witness). -/
theorem c4_best_score_monotone_witness :
    c4StepState.bestScore ≤ c4NextState.bestScore ∧
      (c4NextState.bestScore ≠ c4StepState.bestScore →
        c4StepState.bestScore < c4NextState.bestScore ∧
          c4NextState.bestScore =
            (stepValidation baseEnv "q" 0 c4StepState).score) :=
  (c4_best_score_monotone baseEnv ⟨3, q1_10, false, false⟩ "q" 0
    c4StepState).1 c4NextState (by rfl)

def c4Env : Env :=
  { baseEnv with
    reason := fun _ _ _ _ => ⟨"t", "answer", "A", q4_5⟩,
    validate := fun i _ _ _ _ =>
      if i = 0 then ⟨false, q19_20, "r"⟩ else ⟨true, q9_10, "r"⟩ }

def c4Cfg : AgentCfg := ⟨2, q7_10, false, false⟩

/-- Claim C4 (counterexample): with re-planning disabled, iteration 1's
answer validates inconsistent with score 0.95 (recorded as `bestScore`) and
iteration 2's validates consistent with score 0.9, triggering the early
return; the returned `score` field is 0.9, strictly less than the maximum
validated-answer score 0.95 recorded in the execution path, refuting the
claim that the returned score equals that maximum. -/
theorem c4_counterexample :
    ReActAgent.reactLoop c4Env c4Cfg "q" [] =
      .ok { answer := "A", confidence := q4_5, score := q9_10, sources := [],
            executionPath := [
              ⟨1, "t", "answer", none, "A", some q4_5,
                some ⟨false, q19_20, "r"⟩⟩,
              ⟨2, "t", "answer", none, "A", some q4_5,
                some ⟨true, q9_10, "r"⟩⟩],
            iterations := 2 }
    ∧ q9_10 < q19_20 := by
  constructor
  · rfl
  · decide

/-- Claim C5 (amended): every merge the loop performs goes through
`_deduplicate_documents`, whose output never contains two items with the
same identity key, is a sublist of its input (relative order preserved),
and keeps exactly the first-encountered item of each key; hence a loop step
preserves key-uniqueness of the evidence context.  However the initial
context is installed as-is, so duplicates already present in it survive
until the first merge (see the counterexample). -/
theorem c5_dedup_first_survivor
    (l : List Doc) (env : Env) (cfg : AgentCfg) (query : String) (i : Nat) :
    ((dedupDocs l).map docKey).Nodup
    ∧ List.Sublist (dedupDocs l) l
    ∧ (∀ (xs : List Doc) (d : Doc) (ys : List Doc),
        l = xs ++ d :: ys → docKey d ∉ xs.map docKey → d ∈ dedupDocs l)
    ∧ (∀ st st', ReActAgent.reactStep env cfg query i st = .ok (.inl st') →
        (st.context.map docKey).Nodup → (st'.context.map docKey).Nodup) := by
  refine ⟨dedupAux_keys_nodup l [], dedupAux_sublist l [], ?_, ?_⟩
  · intro xs d ys hl hk
    subst hl
    exact dedupAux_mem_of_first xs [] d ys (by simp) hk
  · intro st st' h hn
    rcases reactStep_inl_context env cfg query i st st' h with heq | ⟨ds, heq⟩
    · rw [heq]; exact hn
    · rw [heq]; exact dedupAux_keys_nodup _ []

def dupDoc : Doc := ⟨"text", some "doc1", some "2"⟩

def freshDoc : Doc := ⟨"other", some "doc9", some "1"⟩

/-- Claim C5 (amended, witness). -/
theorem c5_dedup_first_survivor_witness :
    freshDoc ∈ dedupDocs [dupDoc, freshDoc, dupDoc] :=
  (c5_dedup_first_survivor [dupDoc, freshDoc, dupDoc] baseEnv
    ⟨1, q7_10, false, false⟩ "q" 0).2.2.1 [dupDoc] freshDoc [dupDoc]
    rfl (by decide)

def c5Env : Env :=
  { baseEnv with
    reason := fun _ _ _ _ => ⟨"t", "answer", "ANS", 1⟩,
    validate := fun _ _ _ _ _ => ⟨true, q19_20, "ok"⟩ }

def c5Cfg : AgentCfg := ⟨1, q7_10, false, false⟩

/-- Claim C5 (counterexample): the loop is started with an initial context
holding two items with the same identity key (`doc1_2`); it runs an entire
iteration — and returns — with that duplicated context (the returned
sources list the same source twice), so the accumulated evidence set is not
duplicate-free at every point for every initial context. -/
theorem c5_counterexample :
    ¬(((ReActAgent.initState [dupDoc, dupDoc]).context.map docKey).Nodup)
    ∧ ReActAgent.reactLoop c5Env c5Cfg "q" [dupDoc, dupDoc] =
      .ok { answer := "ANS", confidence := 1, score := q19_20,
            sources := ["doc1", "doc1"],
            executionPath := [⟨1, "t", "answer", none, "ANS", some 1,
              some ⟨true, q19_20, "ok"⟩⟩],
            iterations := 1 } := by
  constructor
  · decide
  · rfl

def c6Cfg : AgentCfg := ⟨0, q7_10, true, true⟩

/-- Claim C6: the code crashes where the claim requires a normal return.
With `maxIterations = 0` the loop body never runs, `best_answer` is `None`
and the execution path is empty, so
`best_answer or execution_path[-1].get(...)` raises `IndexError` instead of
returning the "no answer" placeholder with confidence 0.5 as specified. -/
theorem c6_empty_path_raises_index_error :
    ReActAgent.reactLoop baseEnv c6Cfg "q" [] =
      .error "IndexError: list index out of range" := rfl

/-- Claim C10: when the confidence-gated re-retrieval fires on an empty
evidence context, the expansion call uses the base count 5 in place of the
zero context length, so with the loop's fixed expansion factor 4 it asks
the retriever for 5 × 4 = 20 items; the step then merges exactly the
result of that width-20 request. -/
theorem c10_reretrieval_empty_context_requests_twenty
    (env : Env) (cfg : AgentCfg) (query : String) (i : Nat) (st : LoopState)
    (r : ReasonResult)
    (hr : env.reason i query st.context st.previousReasoning = r)
    (hctx : st.context = [])
    (hgate : cfg.enableReretrieval = true ∧
      r.confidence < cfg.confidenceThreshold ∧
      r.action = "answer" ∧ i + 1 < cfg.maxIterations)
    (hret : env.hasRetriever = true) :
    ActionExecutor.expandRetrieval env i query
        (if st.context.isEmpty then 5 else st.context.length) 4 =
      env.retrieveK i query 20
    ∧ ReActAgent.reactStep env cfg query i st =
      (env.retrieveK i query 20).map
        (fun ds => Sum.inl { st with
          context := dedupDocs (st.context ++ ds),
          path := st.path ++ [⟨i + 1, r.thought, "reretrieval", none,
            "扩大检索，新增 " ++ toString ds.length ++ " 个文档",
            some r.confidence, none⟩] }) := by
  have hexp : ActionExecutor.expandRetrieval env i query
      (if st.context.isEmpty then 5 else st.context.length) 4 =
      env.retrieveK i query 20 := by
    rw [hctx]
    unfold ActionExecutor.expandRetrieval BaseRetriever.expandRetrieval
    rw [hret]
    rfl
  refine ⟨hexp, ?_⟩
  rw [reactStep_gate_eq env cfg query i st r hr hgate, hexp]

def c10Env : Env :=
  { baseEnv with
    hasRetriever := true,
    retrieveK := fun _ _ k => .ok (if k = 20 then [freshDoc] else []) }

def c10Cfg : AgentCfg := ⟨2, q7_10, true, false⟩

/-- Claim C10 (witness). -/
theorem c10_reretrieval_empty_context_requests_twenty_witness :
    ActionExecutor.expandRetrieval c10Env 0 "q"
        (if (ReActAgent.initState []).context.isEmpty then 5
          else (ReActAgent.initState []).context.length) 4 =
      c10Env.retrieveK 0 "q" 20 :=
  (c10_reretrieval_empty_context_requests_twenty c10Env c10Cfg "q" 0
    (ReActAgent.initState []) ⟨"", "answer", "", q1_2⟩ rfl rfl
    ⟨rfl, by decide, rfl, by decide⟩ rfl).1

/-! ## Reasoning step parsing (`src/agent/reasoning.py`)

The regular-expression searches of `_parse_reasoning` and
`extract_confidence` are embedded as explicit scanners over character
lists: a position matcher is tried at every start position from the left,
exactly as `re.search` does. -/

/-- Python substring containment `pat in hay` over character lists. -/
def charsContains : List Char → List Char → Bool
  | _, [] => true
  | [], _ :: _ => false
  | c :: cs, p :: ps =>
    List.isPrefixOf (p :: ps) (c :: cs) || charsContains cs (p :: ps)

/-- First index at which `pat` occurs in `hay` (`str.find`), if any. -/
def findSubAux (pat : List Char) : List Char → Option Nat
  | [] => if pat.isEmpty then some 0 else none
  | c :: cs =>
    if List.isPrefixOf pat (c :: cs) then some 0
    else (findSubAux pat cs).map (· + 1)

/-- `re.search` driver: try the position matcher at every start position,
left to right, returning the first match. -/
def scanFirst {α : Type} (f : List Char → Option α) : List Char → Option α
  | [] => none
  | c :: cs =>
    match f (c :: cs) with
    | some g => some g
    | none => scanFirst f cs

/-- Lowercasing (`str.lower`, applied for `re.IGNORECASE` patterns). -/
def lowerChars (cs : List Char) : List Char := cs.map Char.toLower

/-- Matcher for `LABEL[：:]\s*([0-9.]+)` at the current position: the
greedy `\s*` and the maximal digits-and-dots run. -/
def numRunAt (label : List Char) (cs : List Char) : Option (List Char) :=
  if List.isPrefixOf label cs then
    match cs.drop label.length with
    | c :: rest =>
      if c = ':' ∨ c = '：' then
        let run := (rest.dropWhile Char.isWhitespace).takeWhile
          (fun ch => ch.isDigit || ch = '.')
        if run.isEmpty then none else some run
      else none
    | [] => none
  else none

/-- Matcher for `confidence[：:]\s*(\d+)%` at the current position. -/
def pctRunAt (cs : List Char) : Option (List Char) :=
  if List.isPrefixOf ("confidence".data) cs then
    match cs.drop 10 with
    | c :: rest =>
      if c = ':' ∨ c = '：' then
        let after := rest.dropWhile Char.isWhitespace
        let run := after.takeWhile Char.isDigit
        if run.isEmpty then none
        else
          match after.drop run.length with
          | '%' :: _ => some run
          | _ => none
      else none
    | [] => none
  else none

/-- Matcher for `(\d+\.\d+)\s*分` at the current position. -/
def scoreRunAt (cs : List Char) : Option (List Char) :=
  let d1 := cs.takeWhile Char.isDigit
  if d1.isEmpty then none
  else
    match cs.drop d1.length with
    | '.' :: rest =>
      let d2 := rest.takeWhile Char.isDigit
      if d2.isEmpty then none
      else if List.isPrefixOf ("分".data)
          ((rest.drop d2.length).dropWhile Char.isWhitespace) then
        some (d1 ++ '.' :: d2)
      else none
    | _ => none

/-- Value of a run of decimal digits (`int()` of the run). -/
def natOfDigits (cs : List Char) : Nat :=
  cs.foldl (fun n c => n * 10 + (c.toNat - 48)) 0

/-- Python `float()` applied to a `[0-9.]+` run: defined iff the run has at
most one dot and at least one digit. -/
def pyFloatOfRun (run : List Char) : Option Rat :=
  if 2 ≤ (run.filter (fun c => c = '.')).length ∨
      run.all (fun c => c = '.') then
    none
  else
    let intPart := run.takeWhile Char.isDigit
    let fracPart := (run.dropWhile Char.isDigit).drop 1
    some ((natOfDigits intPart : Rat) +
      (natOfDigits fracPart : Rat) / ((10 : Rat) ^ fracPart.length))

/-- `ReasoningEngine.extract_confidence`: try the numeric patterns in order
(all effectively IGNORECASE — the loop passes the flag for every pattern),
converting a percentage or a value above 1 by dividing by 100 and clamping
to [0, 1]; a matched group that is not a valid float makes `float()` raise,
which propagates (to be caught by `reason`); with no numeric match, fall
back to keyword estimates on the lowercased text. -/
def ReasoningEngine.extractConfidence (reasoningText : String) :
    Except String Rat :=
  let lower := lowerChars reasoningText.data
  match scanFirst (numRunAt ("置信度".data)) lower with
  | some run =>
    match pyFloatOfRun run with
    | some v => .ok (min (max (if 1 < v then v / 100 else v) 0) 1)
    | none => .error "ValueError: could not convert string to float"
  | none =>
  match scanFirst (numRunAt ("confidence".data)) lower with
  | some run =>
    match pyFloatOfRun run with
    | some v => .ok (min (max (if 1 < v then v / 100 else v) 0) 1)
    | none => .error "ValueError: could not convert string to float"
  | none =>
  match scanFirst pctRunAt lower with
  | some run => .ok (min (max ((natOfDigits run : Rat) / 100) 0) 1)
  | none =>
  match scanFirst scoreRunAt lower with
  | some run =>
    match pyFloatOfRun run with
    | some v => .ok (min (max (if 1 < v then v / 100 else v) 0) 1)
    | none => .error "ValueError: could not convert string to float"
  | none =>
  if ["不确定", "不清楚", "unknown", "uncertain"].any
      (fun w => charsContains lower w.data) then .ok q3_10
  else if ["可能", "maybe", "perhaps"].any
      (fun w => charsContains lower w.data) then .ok q1_2
  else if ["确定", "certain", "sure", "definitely"].any
      (fun w => charsContains lower w.data) then .ok q9_10
  else .ok q7_10

/-- A `$` position in a non-MULTILINE Python regex: end of the string, or
just before a final newline. -/
def dollarPos : List Char → Bool
  | [] => true
  | ['\n'] => true
  | _ => false

/-- The lazy group `(.+?)` (DOTALL) before the lookahead `(?=STOP|$)`:
the shortest non-empty prefix after which the stop word or a `$` position
follows. -/
def lazyTake (stop : List Char) : List Char → List Char
  | [] => []
  | c :: cs =>
    if List.isPrefixOf stop cs ∨ dollarPos cs then [c]
    else c :: lazyTake stop cs

/-- Matcher for `LABEL[：:]\s*(.+?)(?=STOP|$)` (DOTALL) at the current
position: `\s*` is greedy; when only whitespace follows the colon the
engine backtracks one whitespace character into the group. -/
def lazyGroupAt (label stop : List Char) (cs : List Char) :
    Option (List Char) :=
  if List.isPrefixOf label cs then
    match cs.drop label.length with
    | c :: rest =>
      if c = ':' ∨ c = '：' then
        let w := rest.takeWhile Char.isWhitespace
        let tail := rest.dropWhile Char.isWhitespace
        if tail.isEmpty then
          if w.isEmpty then none else some [w.getLastD ' ']
        else some (lazyTake stop tail)
      else none
    | [] => none
  else none

/-- The `(search|answer|tool_call)` alternation, tried left to right. -/
def actionWord (t : List Char) : Option String :=
  if List.isPrefixOf ("search".data) t then some "search"
  else if List.isPrefixOf ("answer".data) t then some "answer"
  else if List.isPrefixOf ("tool_call".data) t then some "tool_call"
  else none

/-- The `[：:]\s*(search|answer|tool_call)` part after the label. -/
def actionColon : List Char → Option String
  | c :: rest =>
    if c = ':' ∨ c = '：' then
      actionWord (rest.dropWhile Char.isWhitespace)
    else none
  | [] => none

/-- Matcher for `动作[：:]\s*(search|answer|tool_call)` (IGNORECASE, run on
the lowercased text; the code lowercases the matched group). -/
def actionAt (cs : List Char) : Option String :=
  if List.isPrefixOf ("动作".data) cs then actionColon (cs.drop 2)
  else none

/-- `ReasoningEngine._parse_reasoning`: thought and action-input default to
the empty string when their labeled section is absent, the action defaults
to `answer` when no action label is recognized; confidence always comes
from `extract_confidence` (a `float()` failure there propagates). -/
def ReasoningEngine.parseReasoning (reasoningText : String) :
    Except String ReasonResult := do
  let cs := reasoningText.data
  let lower := lowerChars cs
  let thought :=
    match scanFirst (lazyGroupAt ("思考".data) ("动作".data)) cs with
    | some g => String.mk (trimChars g)
    | none => ""
  let action := (scanFirst actionAt lower).getD "answer"
  let actionInput :=
    match scanFirst (lazyGroupAt ("动作输入".data) ("置信度".data)) cs with
    | some g => String.mk (trimChars g)
    | none => ""
  let confidence ← ReasoningEngine.extractConfidence reasoningText
  pure ⟨thought, action, actionInput, confidence⟩

/-- `ReasoningEngine.reason`: the oracle response (or its failure) is the
input; any exception — oracle invocation or `float()` during parsing — is
caught and mapped to the fail-safe step with action `answer` and
confidence 0.3. -/
def ReasoningEngine.reason (oracleResponse : Except String String) :
    ReasonResult :=
  match oracleResponse with
  | .error e => ⟨"推理过程出错: " ++ e, "answer", "", q3_10⟩
  | .ok t =>
    match ReasoningEngine.parseReasoning t with
    | .ok r => r
    | .error e => ⟨"推理过程出错: " ++ e, "answer", "", q3_10⟩

theorem actionAt_vals (cs : List Char) (a : String)
    (h : actionAt cs = some a) :
    a = "search" ∨ a = "answer" ∨ a = "tool_call" := by
  have hw : ∀ t a, actionWord t = some a →
      a = "search" ∨ a = "answer" ∨ a = "tool_call" := by
    intro t b hb
    unfold actionWord at hb
    by_cases h3 : List.isPrefixOf ("search".data) t = true
    · rw [if_pos h3] at hb
      injection hb with hb
      exact Or.inl hb.symm
    · rw [if_neg h3] at hb
      by_cases h4 : List.isPrefixOf ("answer".data) t = true
      · rw [if_pos h4] at hb
        injection hb with hb
        exact Or.inr (Or.inl hb.symm)
      · rw [if_neg h4] at hb
        by_cases h5 : List.isPrefixOf ("tool_call".data) t = true
        · rw [if_pos h5] at hb
          injection hb with hb
          exact Or.inr (Or.inr hb.symm)
        · rw [if_neg h5] at hb
          exact absurd hb (by simp)
  have hcolon : ∀ t a, actionColon t = some a →
      a = "search" ∨ a = "answer" ∨ a = "tool_call" := by
    intro t b hb
    cases t with
    | nil => exact absurd hb (by simp [actionColon])
    | cons c rest =>
      simp only [actionColon] at hb
      by_cases h2 : c = ':' ∨ c = '：'
      · rw [if_pos h2] at hb
        exact hw _ b hb
      · rw [if_neg h2] at hb
        exact absurd hb (by simp)
  unfold actionAt at h
  by_cases h1 : List.isPrefixOf ("动作".data) cs = true
  · rw [if_pos h1] at h
    exact hcolon _ a h
  · rw [if_neg h1] at h
    exact absurd h (by simp)

theorem scanFirst_actionAt_vals (l : List Char) :
    ∀ a, scanFirst actionAt l = some a →
      a = "search" ∨ a = "answer" ∨ a = "tool_call" := by
  induction l with
  | nil => intro a h; simp [scanFirst] at h
  | cons c cs ih =>
    intro a h
    unfold scanFirst at h
    cases hf : actionAt (c :: cs) with
    | some g =>
      rw [hf] at h
      injection h with h
      subst h
      exact actionAt_vals _ _ hf
    | none =>
      rw [hf] at h
      exact ih a h

/-- Claim C7 (counterexample): the oracle response "hello" matches no
labeled structure at all (no action label, no extractable confidence), yet
the produced step has confidence 0.7 — the neutral keyword fallback — not
0.3 as the claim states; only the action falls back to `answer`. -/
theorem c7_counterexample :
    ReasoningEngine.reason (.ok "hello") = ⟨"", "answer", "", q7_10⟩
    ∧ q7_10 ≠ q3_10 ∧ q7_10 = 7/10 ∧ q3_10 = 3/10 :=
  ⟨rfl, by decide, q7_10_eq, q3_10_eq⟩

/-- Claim C7 (amended): the 0.3-confidence fail-safe step is produced when
the oracle invocation (or `float()` inside parsing) raises, never silently
dropping the iteration; a response that parses always carries one of the
three known actions, defaulting to `answer` when no action label is
recognized; and the confidence of a response with no numeric match comes
from the keyword fallback — 0.3 only for uncertainty words, 0.5 for
hedging words, 0.9 for certainty words, and 0.7 otherwise. -/
theorem c7_misparse_defaults (e t : String) (r : ReasonResult) :
    (ReasoningEngine.reason (.error e) =
      ⟨"推理过程出错: " ++ e, "answer", "", q3_10⟩)
    ∧ (ReasoningEngine.parseReasoning t = .ok r →
        r.action = "search" ∨ r.action = "answer" ∨ r.action = "tool_call")
    ∧ (scanFirst actionAt (lowerChars t.data) = none →
        ReasoningEngine.parseReasoning t = .ok r → r.action = "answer")
    ∧ ReasoningEngine.extractConfidence "hello" = .ok q7_10
    ∧ ReasoningEngine.extractConfidence "maybe x" = .ok q1_2
    ∧ ReasoningEngine.extractConfidence "we are sure" = .ok q9_10
    ∧ ReasoningEngine.extractConfidence "uncertain" = .ok q3_10 := by
  refine ⟨rfl, ?_, ?_, rfl, rfl, rfl, rfl⟩
  · intro h
    unfold ReasoningEngine.parseReasoning at h
    cases hc : ReasoningEngine.extractConfidence t with
    | error e2 =>
      rw [hc] at h
      simp [bind, Except.bind] at h
    | ok conf =>
      rw [hc] at h
      simp only [bind, Except.bind, pure, Except.pure, Except.ok.injEq] at h
      subst h
      cases hs : scanFirst actionAt (lowerChars t.data) with
      | none => right; left; simp [hs]
      | some a =>
        have := scanFirst_actionAt_vals (lowerChars t.data) a hs
        simpa [hs] using this
  · intro hs h
    unfold ReasoningEngine.parseReasoning at h
    cases hc : ReasoningEngine.extractConfidence t with
    | error e2 =>
      rw [hc] at h
      simp [bind, Except.bind] at h
    | ok conf =>
      rw [hc] at h
      simp only [bind, Except.bind, pure, Except.pure, Except.ok.injEq] at h
      subst h
      simp [hs]

/-- Claim C7 (amended, witness). -/
theorem c7_misparse_defaults_witness :
    ReasoningEngine.reason (.error "boom") =
      ⟨"推理过程出错: " ++ "boom", "answer", "", q3_10⟩
    ∧ ((⟨"", "answer", "", q7_10⟩ : ReasonResult).action = "answer") :=
  ⟨(c7_misparse_defaults "boom" "hello" ⟨"", "answer", "", q7_10⟩).1,
   (c7_misparse_defaults "boom" "hello" ⟨"", "answer", "", q7_10⟩).2.2.1
     rfl rfl⟩

/-! ## Intent classification (`src/query/intent_classifier.py`) -/

/-- `QueryIntent`, a five-valued string enum. -/
inductive QueryIntent where
  | factual
  | complexReasoning
  | toolCall
  | conversational
  | unknown
  deriving DecidableEq, Repr

/-- `QueryIntent(value)`: the enum lookup; `none` models the `ValueError`
raised for a string that is not one of the five values. -/
def intentOfString (s : String) : Option QueryIntent :=
  if s = "factual" then some .factual
  else if s = "complex_reasoning" then some .complexReasoning
  else if s = "tool_call" then some .toolCall
  else if s = "conversational" then some .conversational
  else if s = "unknown" then some .unknown
  else none

/-- A JSON field value as the classifier distinguishes them: the scalar
shapes, plus `other` for a nested array/object (unhashable in Python). -/
inductive PyVal where
  | str (s : String)
  | num (v : Rat)
  | boolean (b : Bool)
  | null
  | other
  deriving DecidableEq, Repr

/-- What `json.loads` (Python standard library; modelled as an input to the
embedding) produced for the extracted content: an object with its fields,
or a non-object value.  A decode error is `none` at the use site. -/
inductive PyJson where
  | obj (fields : List (String × PyVal))
  | nonObj
  deriving DecidableEq, Repr

/-- `dict.get(k)` over the parsed object's fields. -/
def getField (fields : List (String × PyVal)) (k : String) : Option PyVal :=
  (fields.find? (fun kv => kv.1 == k)).map (fun kv => kv.2)

/-- Python `float()` on a string: optional sign, then digits with at most
one dot (exponent and infinity forms are not modelled; no claim touches
them). -/
def pyFloatOfStr (s : String) : Except String Rat :=
  let t := trimChars s.data
  let signed : Rat × List Char :=
    match t with
    | '-' :: rest => (-1, rest)
    | '+' :: rest => (1, rest)
    | _ => (1, t)
  if signed.2.all (fun c => c.isDigit || c = '.') then
    match pyFloatOfRun signed.2 with
    | some v => .ok (signed.1 * v)
    | none => .error "ValueError: could not convert string to float"
  else .error "ValueError: could not convert string to float"

/-- Python `float()` on a JSON field value: numbers pass through, booleans
map to 0/1, numeric strings are parsed, anything else raises. -/
def pyFloatOfVal : PyVal → Except String Rat
  | .num v => .ok v
  | .boolean b => .ok (if b then 1 else 0)
  | .null => .error "TypeError: float() argument"
  | .other => .error "TypeError: float() argument"
  | .str s => pyFloatOfStr s

/-- Python `s[start:stop]` where `stop` may be negative (counted from the
end); out-of-range indices clamp. -/
def pySlice (cs : List Char) (start : Nat) (stop : Int) : List Char :=
  let stopN : Nat :=
    if stop < 0 then ((cs.length : Int) + stop).toNat else stop.toNat
  (cs.take stopN).drop start

/-- The code-block extraction of `_parse_classification_result` (lines
115-125): strip, then the slice between the opening marker and the next
occurrence of the closing marker — `str.find` returning -1 when there is
no closing marker, which makes the slice drop the final character —
stripped again. -/
def extractCodeBlock (content : String) : String :=
  let cs := trimChars content.data
  if charsContains cs ("```json".data) then
    let start := (findSubAux ("```json".data) cs).getD 0 + 7
    let stop : Int :=
      match findSubAux ("```".data) (cs.drop start) with
      | some e => (e : Int) + (start : Int)
      | none => -1
    String.mk (trimChars (pySlice cs start stop))
  else if charsContains cs ("```".data) then
    let start := (findSubAux ("```".data) cs).getD 0 + 3
    let stop : Int :=
      match findSubAux ("```".data) (cs.drop start) with
      | some e => (e : Int) + (start : Int)
      | none => -1
    String.mk (trimChars (pySlice cs start stop))
  else String.mk cs

/-- The dictionary returned by classification (the fallback paths carry no
reasoning key, hence the `Option`). -/
structure ClassifyResult where
  intent : QueryIntent
  confidence : Rat
  reasoningField : Option PyVal
  deriving DecidableEq, Repr

/-- `IntentClassifier._parse_classification_result`: extract the code
block, then branch on the `json.loads` outcome.  An object: the intent
field's enum lookup (a failed lookup — `ValueError` — is caught and maps to
`unknown`, but an unhashable field raises a `TypeError` that propagates, as
does a `float()` failure on the confidence field; a missing intent defaults
to factual and a missing confidence to 0.5).  A non-object: `.get` raises
`AttributeError`.  A decode error: keyword matching over the lowercased
extracted text, defaulting to `unknown` with confidence 0.7. -/
def IntentClassifier.parseClassificationResult (content : String)
    (decoded : Option PyJson) : Except String ClassifyResult :=
  let processed := extractCodeBlock content
  match decoded with
  | some (.obj fields) => do
    let intent ←
      match getField fields "intent" with
      | none => Except.ok QueryIntent.factual
      | some (.str s) => Except.ok ((intentOfString s).getD .unknown)
      | some (.num _) | some (.boolean _) | some .null =>
        Except.ok QueryIntent.unknown
      | some .other => Except.error "TypeError: unhashable type"
    let confidence ←
      match getField fields "confidence" with
      | none => Except.ok q1_2
      | some v => pyFloatOfVal v
    pure { intent := intent, confidence := confidence,
           reasoningField := some ((getField fields "reasoning").getD (.str "")) }
  | some .nonObj => .error "AttributeError: no attribute get"
  | none =>
    let lower := lowerChars processed.data
    let intent :=
      if charsContains lower ("factual".data) ||
          charsContains lower ("事实".data) then QueryIntent.factual
      else if charsContains lower ("complex".data) ||
          charsContains lower ("复杂".data) ||
          charsContains lower ("reasoning".data) then QueryIntent.complexReasoning
      else if charsContains lower ("tool".data) ||
          charsContains lower ("工具".data) then QueryIntent.toolCall
      else if charsContains lower ("conversational".data) ||
          charsContains lower ("对话".data) then QueryIntent.conversational
      else QueryIntent.unknown
    .ok { intent := intent, confidence := q7_10,
          reasoningField := some (.str "基于文本匹配的分类") }

/-- `IntentClassifier.classify`: disabled classification short-circuits to
factual/1.0 without any oracle call; otherwise any exception — from the
oracle call or from result parsing — is caught and mapped to factual with
confidence 0.5. -/
def IntentClassifier.classify (enableClassification : Bool)
    (oracle : Except String String) (decoded : Option PyJson) :
    ClassifyResult :=
  if !enableClassification then ⟨.factual, 1, none⟩
  else
    match oracle with
    | .error _ => ⟨.factual, q1_2, none⟩
    | .ok content =>
      match IntentClassifier.parseClassificationResult content decoded with
      | .ok r => r
      | .error _ => ⟨.factual, q1_2, none⟩

/-- Claim C8 (counterexample): on a response that fails JSON decoding and
contains no intent keyword, the keyword fallback yields intent `unknown`
with confidence 0.7 — not the claimed default of `factual` with 0.5. -/
theorem c8_counterexample :
    IntentClassifier.classify true (.ok "###") none =
      ⟨.unknown, q7_10, some (.str "基于文本匹配的分类")⟩
    ∧ QueryIntent.unknown ≠ QueryIntent.factual ∧ q7_10 ≠ q1_2 :=
  ⟨by rfl, by decide, by decide⟩

/-- Claim C8 (amended): classification never raises — `classify` catches
every failure: an oracle-call failure and any parsing exception both map to
factual with confidence 0.5; a JSON decode failure falls back to keyword
matching over the extracted response text; but when keyword matching
matches no intent, the result is `unknown` with confidence 0.7 (the
factual/0.5 default applies only to the exception path). -/
theorem c8_classifier_fallbacks (e content err : String)
    (d : Option PyJson) :
    (IntentClassifier.classify true (.error e) d = ⟨.factual, q1_2, none⟩)
    ∧ (IntentClassifier.parseClassificationResult content d = .error err →
        IntentClassifier.classify true (.ok content) d =
          ⟨.factual, q1_2, none⟩)
    ∧ (charsContains (lowerChars (extractCodeBlock content).data)
          ("factual".data) = false →
       charsContains (lowerChars (extractCodeBlock content).data)
          ("事实".data) = false →
       charsContains (lowerChars (extractCodeBlock content).data)
          ("complex".data) = false →
       charsContains (lowerChars (extractCodeBlock content).data)
          ("复杂".data) = false →
       charsContains (lowerChars (extractCodeBlock content).data)
          ("reasoning".data) = false →
       charsContains (lowerChars (extractCodeBlock content).data)
          ("tool".data) = false →
       charsContains (lowerChars (extractCodeBlock content).data)
          ("工具".data) = false →
       charsContains (lowerChars (extractCodeBlock content).data)
          ("conversational".data) = false →
       charsContains (lowerChars (extractCodeBlock content).data)
          ("对话".data) = false →
        IntentClassifier.parseClassificationResult content none =
          .ok ⟨.unknown, q7_10, some (.str "基于文本匹配的分类")⟩) := by
  refine ⟨rfl, ?_, ?_⟩
  · intro h
    have hunf : IntentClassifier.classify true (.ok content) d =
        match IntentClassifier.parseClassificationResult content d with
        | .ok r => r
        | .error _ => ⟨.factual, q1_2, none⟩ := rfl
    rw [hunf, h]
  · intro h1 h2 h3 h4 h5 h6 h7 h8 h9
    unfold IntentClassifier.parseClassificationResult
    simp [h1, h2, h3, h4, h5, h6, h7, h8, h9]

/-- Claim C8 (amended, witness). -/
theorem c8_classifier_fallbacks_witness :
    IntentClassifier.classify true (.ok "5") (some .nonObj) =
      ⟨.factual, q1_2, none⟩
    ∧ IntentClassifier.parseClassificationResult "###" none =
      .ok ⟨.unknown, q7_10, some (.str "基于文本匹配的分类")⟩ :=
  ⟨(c8_classifier_fallbacks "e" "5" "AttributeError: no attribute get"
      (some .nonObj)).2.1 (by rfl),
   (c8_classifier_fallbacks "e" "###" "x" none).2.2
     (by rfl) (by rfl) (by rfl) (by rfl) (by rfl) (by rfl) (by rfl)
     (by rfl) (by rfl)⟩

/-! ## Reranker (`src/core/reranker.py`) -/

/-- `re.findall(r'\d+', text)` followed by `int()`: the values of the
maximal digit runs, left to right (`run` is the current run, reversed). -/
def digitRunsGo : List Char → List Char → List Nat
  | [], run => if run.isEmpty then [] else [natOfDigits run.reverse]
  | c :: cs, run =>
    if c.isDigit then digitRunsGo cs (c :: run)
    else if run.isEmpty then digitRunsGo cs []
    else natOfDigits run.reverse :: digitRunsGo cs []

/-- All integers parsed out of the oracle's response text. -/
def extractNats (s : String) : List Nat := digitRunsGo s.data []

/-- The dedup-preserving-first-occurrence loop of `_parse_rerank_result`. -/
def dedupNatsAux : List Nat → List Nat → List Nat
  | [], _ => []
  | i :: is, seen =>
    if i ∈ seen then dedupNatsAux is seen
    else i :: dedupNatsAux is (i :: seen)

/-- `Reranker._parse_rerank_result(result_text, max_index)`: parse all
integers, drop those not below `max_index`, dedup keeping the first
occurrence; fall back to the identity order when nothing valid remains;
otherwise append the missing indices in increasing order and truncate to
`max_index`. -/
def Reranker.parseRerankResult (resultText : String) (maxIndex : Nat) :
    List Nat :=
  let indices := (extractNats resultText).filter (fun i => decide (i < maxIndex))
  let unique := dedupNatsAux indices []
  if unique.isEmpty then List.range maxIndex
  else
    (unique ++ (List.range maxIndex).filter
      (fun i => decide (i ∉ unique))).take maxIndex

/-- `Reranker.rerank(query, documents, top_n)`: empty input gives an empty
output; when the candidate set already fits the budget it is returned
unchanged with no oracle call; an oracle exception falls back to the
original order truncated; otherwise the documents are indexed by the
repaired ordering (the comprehension's bound guard repeated) and truncated
to `top_n`. -/
def Reranker.rerank (oracle : Except String String) (query : String)
    (documents : List Doc) (topN : Nat) : List Doc :=
  if documents.isEmpty then []
  else if documents.length ≤ topN then documents
  else
    match oracle with
    | .error _ => documents.take topN
    | .ok t =>
      ((Reranker.parseRerankResult t documents.length).take topN).filterMap
        (fun i => if i < documents.length then documents.get? i else none)

theorem dedupNatsAux_mem (l : List Nat) :
    ∀ seen i, i ∈ dedupNatsAux l seen → i ∈ l ∧ i ∉ seen := by
  induction l with
  | nil => intro seen i h; simp [dedupNatsAux] at h
  | cons x xs ih =>
    intro seen i h
    simp only [dedupNatsAux] at h
    by_cases hx : x ∈ seen
    · rw [if_pos hx] at h
      obtain ⟨h1, h2⟩ := ih seen i h
      exact ⟨List.mem_cons_of_mem _ h1, h2⟩
    · rw [if_neg hx] at h
      rcases List.mem_cons.mp h with rfl | h'
      · exact ⟨List.mem_cons_self _ _, hx⟩
      · obtain ⟨h1, h2⟩ := ih (x :: seen) i h'
        exact ⟨List.mem_cons_of_mem _ h1,
          fun hs => h2 (List.mem_cons_of_mem _ hs)⟩

theorem dedupNatsAux_nodup (l : List Nat) :
    ∀ seen, (dedupNatsAux l seen).Nodup := by
  induction l with
  | nil => intro seen; simp [dedupNatsAux]
  | cons x xs ih =>
    intro seen
    simp only [dedupNatsAux]
    by_cases hx : x ∈ seen
    · rw [if_pos hx]
      exact ih seen
    · rw [if_neg hx]
      refine List.nodup_cons.mpr ⟨?_, ih (x :: seen)⟩
      intro hmem
      exact (dedupNatsAux_mem xs (x :: seen) x hmem).2
        (List.mem_cons_self _ _)

theorem parseRerankResult_perm (t : String) (n : Nat) :
    (Reranker.parseRerankResult t n).Perm (List.range n) := by
  unfold Reranker.parseRerankResult
  by_cases he : (dedupNatsAux
      ((extractNats t).filter (fun i => decide (i < n))) []).isEmpty
  · rw [if_pos he]
  · rw [if_neg he]
    have hmemu : ∀ i, i ∈ dedupNatsAux
        ((extractNats t).filter (fun i => decide (i < n))) [] → i < n := by
      intro i hi
      have := (dedupNatsAux_mem _ [] i hi).1
      have := List.of_mem_filter this
      simpa using this
    have hnodup : (dedupNatsAux
        ((extractNats t).filter (fun i => decide (i < n))) [] ++
        (List.range n).filter (fun i => decide (i ∉ dedupNatsAux
          ((extractNats t).filter (fun i => decide (i < n))) []))).Nodup := by
      refine List.Nodup.append (dedupNatsAux_nodup _ [])
        (List.Nodup.filter _ (List.nodup_range n)) ?_
      intro a ha hb
      have := List.of_mem_filter hb
      simp only [decide_eq_true_eq] at this
      exact this ha
    have hmem : ∀ a, a ∈ dedupNatsAux
        ((extractNats t).filter (fun i => decide (i < n))) [] ++
        (List.range n).filter (fun i => decide (i ∉ dedupNatsAux
          ((extractNats t).filter (fun i => decide (i < n))) [])) ↔
        a ∈ List.range n := by
      intro a
      constructor
      · intro ha
        rcases List.mem_append.mp ha with h | h
        · exact List.mem_range.mpr (hmemu a h)
        · exact List.mem_of_mem_filter h
      · intro ha
        by_cases hu : a ∈ dedupNatsAux
            ((extractNats t).filter (fun i => decide (i < n))) []
        · exact List.mem_append.mpr (Or.inl hu)
        · refine List.mem_append.mpr (Or.inr ?_)
          exact List.mem_filter.mpr ⟨ha, by simpa using hu⟩
    have hperm : (dedupNatsAux
        ((extractNats t).filter (fun i => decide (i < n))) [] ++
        (List.range n).filter (fun i => decide (i ∉ dedupNatsAux
          ((extractNats t).filter (fun i => decide (i < n))) []))).Perm
        (List.range n) :=
      (List.perm_ext_iff_of_nodup hnodup (List.nodup_range n)).mpr hmem
    have hlen : (dedupNatsAux
        ((extractNats t).filter (fun i => decide (i < n))) [] ++
        (List.range n).filter (fun i => decide (i ∉ dedupNatsAux
          ((extractNats t).filter (fun i => decide (i < n))) []))).length = n := by
      rw [hperm.length_eq, List.length_range]
    rw [List.take_of_length_le (le_of_eq hlen)]
    exact hperm

theorem range_filterMap_get (l : List Doc) (k : Nat) :
    (List.range k).filterMap (fun i => l.get? i) = l.take k := by
  induction k with
  | zero => simp
  | succ k ih =>
    rw [List.range_succ, List.filterMap_append, ih, List.take_succ]
    cases hk : l[k]? <;> simp [List.filterMap_cons, hk, Option.toList]

theorem guard_get_eq_get (l : List Doc) :
    (fun i => if i < l.length then l.get? i else none) =
      (fun i => l.get? i) := by
  funext i
  by_cases h : i < l.length
  · rw [if_pos h]
  · rw [if_neg h, eq_comm, List.get?_eq_none]
    exact le_of_not_lt h

theorem filterMap_guard_length (ds : List Doc) (l : List Nat)
    (h : ∀ i ∈ l, i < ds.length) :
    (l.filterMap (fun i => if i < ds.length then ds.get? i else none)).length
      = l.length := by
  induction l with
  | nil => simp
  | cons a as ih =>
    have ha : a < ds.length := h a (List.mem_cons_self _ _)
    have hd : ds.get? a = some (ds.get ⟨a, ha⟩) := List.get?_eq_get ha
    rw [List.filterMap_cons, if_pos ha, hd]
    simp only [List.length_cons]
    rw [ih (fun i hi => h i (List.mem_cons_of_mem _ hi))]

/-- Claim C9: the reranker's output always has length
`min topN (number of candidates)` and is the prefix of a total permutation
of the candidate index range applied to the candidates (no out-of-range
index, no duplicate, candidates never dropped); when the oracle call fails,
or its response contains no parseable integer, the output is the original
order truncated to `topN`. -/
theorem c9_rerank_contract (oracle : Except String String) (query : String)
    (documents : List Doc) (topN : Nat) :
    (Reranker.rerank oracle query documents topN).length =
      min topN documents.length
    ∧ (∃ p : List Nat, p.Perm (List.range documents.length) ∧
        Reranker.rerank oracle query documents topN =
          (p.take topN).filterMap
            (fun i => if i < documents.length then documents.get? i else none))
    ∧ (∀ e, oracle = .error e →
        Reranker.rerank oracle query documents topN = documents.take topN)
    ∧ (∀ t, oracle = .ok t → extractNats t = [] →
        Reranker.rerank oracle query documents topN = documents.take topN) := by
  have htake : ∀ k : Nat, ((List.range documents.length).take k).filterMap
      (fun i => if i < documents.length then documents.get? i else none) =
      documents.take k := by
    intro k
    rw [guard_get_eq_get, List.take_range, range_filterMap_get]
    rcases Nat.le_total k documents.length with h | h
    · rw [Nat.min_eq_left h]
    · rw [Nat.min_eq_right h, List.take_length,
        List.take_of_length_le h]
  by_cases hnil : documents.isEmpty
  · have hd : documents = [] := List.isEmpty_iff.mp hnil
    subst hd
    refine ⟨?_, ⟨[], by simp, ?_⟩, ?_, ?_⟩ <;>
      simp [Reranker.rerank]
  · by_cases hle : documents.length ≤ topN
    · have hr : Reranker.rerank oracle query documents topN = documents := by
        unfold Reranker.rerank
        rw [if_neg (by simpa using hnil), if_pos hle]
      refine ⟨?_, ⟨List.range documents.length, List.Perm.refl _, ?_⟩, ?_, ?_⟩
      · rw [hr, Nat.min_eq_right hle]
      · rw [hr, htake topN, List.take_of_length_le hle]
      · intro e _
        rw [hr, List.take_of_length_le hle]
      · intro t _ _
        rw [hr, List.take_of_length_le hle]
    · cases oracle with
      | error e =>
        have hr : Reranker.rerank (.error e) query documents topN =
            documents.take topN := by
          unfold Reranker.rerank
          rw [if_neg (by simpa using hnil), if_neg hle]
        refine ⟨?_, ⟨List.range documents.length, List.Perm.refl _, ?_⟩, ?_, ?_⟩
        · rw [hr, List.length_take]
        · rw [hr, htake topN]
        · intro e2 _
          exact hr
        · intro t ht
          exact absurd ht (by simp)
      | ok t =>
        have hr : Reranker.rerank (.ok t) query documents topN =
            ((Reranker.parseRerankResult t documents.length).take topN).filterMap
              (fun i => if i < documents.length then documents.get? i else none) := by
          unfold Reranker.rerank
          rw [if_neg (by simpa using hnil), if_neg hle]
        have hperm := parseRerankResult_perm t documents.length
        refine ⟨?_, ⟨Reranker.parseRerankResult t documents.length, hperm, hr⟩,
          ?_, ?_⟩
        · rw [hr]
          have hlt : ∀ i ∈ (Reranker.parseRerankResult t
              documents.length).take topN, i < documents.length := by
            intro i hi
            have : i ∈ Reranker.parseRerankResult t documents.length :=
              List.mem_of_mem_take hi
            exact List.mem_range.mp (hperm.mem_iff.mp this)
          rw [filterMap_guard_length documents _ hlt, List.length_take,
            hperm.length_eq, List.length_range]
        · intro e he
          exact absurd he (by simp)
        · intro t2 ht hnone
          injection ht with ht
          subst ht
          have hparse : Reranker.parseRerankResult t documents.length =
              List.range documents.length := by
            unfold Reranker.parseRerankResult
            rw [hnone]
            rfl
          rw [hr, hparse, htake topN]

/-- Claim C9 (witness). -/
theorem c9_rerank_contract_witness :
    Reranker.rerank (.ok "abc") "q" [coarseDoc, chunkDoc, freshDoc] 2 =
      [coarseDoc, chunkDoc, freshDoc].take 2 :=
  (c9_rerank_contract (.ok "abc") "q" [coarseDoc, chunkDoc, freshDoc] 2).2.2.2
    "abc" rfl (by rfl)

end AgentRag
